import Mathlib

/-!
Verification of the `terraform_ci` helper library (a single Python module,
`terraform_ci/__init__.py`) against its specification.

The module is embedded shallowly:

* Python `str` values become Lean `String`s; the handful of `str` methods the
  module uses (`splitlines`, `split()` with no argument, `startswith`,
  `int(...)` conversion) are reimplemented below over `List Char`, following
  CPython semantics for the character classes involved.
* `None`-able integers become `Option Int`.
* Exceptions that the code can raise (IndexError / ValueError in
  `parse_plan`, TypeError in `render_comment` when a count is `None`)
  become `Except Unit` results; the `try ... except AttributeError` in
  `parse_plan` is dead code for string input (a `str` always has
  `splitlines`/`split`), so it does not appear in the embedding.
* `bytes` output of subprocesses is modelled after its UTF-8 decoding, as a
  `String`: every claim under study concerns decoded text only.
* The process environment and the parsed JSON variable file of
  `setup_environment` become an explicit map `String → Option String` and an
  association list `List (String × String)` (a JSON object: keys distinct,
  in insertion order).
-/

namespace TerraformCI

/-- Line-boundary characters of CPython `str.splitlines`, except `'\r'`
(handled separately because of the two-character boundary `"\r\n"`). -/
def lineBoundChar (c : Char) : Bool :=
  c = '\n' || c = '\x0b' || c = '\x0c' || c = '\x1c' || c = '\x1d' ||
  c = '\x1e' || c = '\x85' || c = '\u2028' || c = '\u2029'

/-- Worker for `str.splitlines`: accumulates the current line in reverse. -/
def splitlinesGo : List Char → List Char → List (List Char)
  | [], acc => if acc.isEmpty then [] else [acc.reverse]
  | '\r' :: '\n' :: rest, acc => acc.reverse :: splitlinesGo rest []
  | c :: rest, acc =>
    if c = '\r' || lineBoundChar c then acc.reverse :: splitlinesGo rest []
    else splitlinesGo rest (c :: acc)

/-- Python `output.splitlines()`: no trailing empty line, `"\r\n"` counts as
one boundary. -/
def pySplitlines (s : String) : List String :=
  (splitlinesGo s.data []).map String.mk

/-- The whitespace characters of CPython `str.split()` with no argument,
the exact `Py_UNICODE_ISSPACE` set: tab through carriage return, the four
ASCII separators x1c..x1f, space, next line (x85), no-break space (xa0),
Ogham space mark (u1680), the u2000..u200a space range, the line and
paragraph separators, narrow no-break space (u202f), medium mathematical
space (u205f) and ideographic space (u3000). -/
def pySpaceChar (c : Char) : Bool :=
  ('\t' <= c && c <= '\x0d') || ('\x1c' <= c && c <= '\x1f') || c = ' ' ||
  c = '\x85' || c = '\xa0' || c = '\u1680' ||
  ('\u2000' <= c && c <= '\u200a') || c = '\u2028' || c = '\u2029' ||
  c = '\u202f' || c = '\u205f' || c = '\u3000'

/-- Worker for `str.split()`: splits on runs of whitespace, producing no
empty tokens. -/
def splitWsGo : List Char → List Char → List (List Char)
  | [], acc => if acc.isEmpty then [] else [acc.reverse]
  | c :: rest, acc =>
    if pySpaceChar c then
      if acc.isEmpty then splitWsGo rest [] else acc.reverse :: splitWsGo rest []
    else splitWsGo rest (c :: acc)

/-- Python `line.split()` with no argument. -/
def pySplit (s : String) : List String :=
  (splitWsGo s.data []).map String.mk

/-- Digits of a Python integer literal after the first digit: plain digits
with single underscores allowed between digits. -/
def pyDigitsGo : List Char → Nat → Option Nat
  | [], acc => some acc
  | '_' :: c :: rest, acc =>
    if c.isDigit then pyDigitsGo rest (acc * 10 + (c.toNat - 48)) else none
  | ['_'], _ => none
  | c :: rest, acc =>
    if c.isDigit then pyDigitsGo rest (acc * 10 + (c.toNat - 48)) else none

/-- A nonempty digit sequence (first character must be a digit). -/
def pyDigits : List Char → Option Nat
  | [] => none
  | c :: rest => if c.isDigit then pyDigitsGo rest (c.toNat - 48) else none

/-- Python `int(token)` for tokens produced by `split()` (such a token is
nonempty and contains no whitespace, so the surrounding-whitespace and
non-ASCII-digit cases of `int` cannot arise): optional sign, then digits;
`none` models the `ValueError` that `int` raises otherwise. -/
def pyIntOfChars : List Char → Option Int
  | '+' :: rest => (pyDigits rest).map (fun n => (n : Int))
  | '-' :: rest => (pyDigits rest).map (fun n => -(n : Int))
  | l => (pyDigits l).map (fun n => (n : Int))

/-- Python `int(s)` on a whitespace-free string. -/
def pyInt (s : String) : Option Int :=
  pyIntOfChars s.data

/-- The exact no-changes line the parser recognises. -/
def noChangesStr : String := "No changes. Infrastructure is up-to-date."

/-- Python `line.startswith("Plan: ")`. -/
def planStart (line : String) : Bool :=
  "Plan: ".data.isPrefixOf line.data

/-- `int(split_line[1]), int(split_line[4]), int(split_line[7])` of a line:
`none` when an index is out of range (IndexError) or a token is not a
Python integer (ValueError). -/
def planLineValues (line : String) : Option (Int × Int × Int) := do
  let toks := pySplit line
  let t1 ← toks[1]?
  let a ← pyInt t1
  let t4 ← toks[4]?
  let c ← pyInt t4
  let t7 ← toks[7]?
  let d ← pyInt t7
  pure (a, c, d)

/-- The line loop of `parse_plan`, carrying the current
`(add, change, destroy)` bindings. A `"Plan: "` line whose tokens do not
parse raises (IndexError/ValueError are not caught: only AttributeError
is), modelled as `Except.error ()`. -/
def parsePlanLoop :
    List String → Option Int × Option Int × Option Int →
      Except Unit (Option Int × Option Int × Option Int)
  | [], acc => .ok acc
  | line :: rest, acc =>
    if planStart line then
      match planLineValues line with
      | some (a, c, d) => parsePlanLoop rest (some a, some c, some d)
      | none => .error ()
    else if line = noChangesStr then .ok (some 0, some 0, some 0)
    else parsePlanLoop rest acc

/-- `parse_plan(output)`: scan the lines of `output`; `add`, `change` and
`destroy` start as `None`. -/
def parse_plan (output : String) :
    Except Unit (Option Int × Option Int × Option Int) :=
  parsePlanLoop (pySplitlines output) (none, none, none)

/-! ## `render_comment` -/

/-- The three count columns of the status table, in the order the code
iterates them (`['add', 'change', 'destroy']`). -/
inductive Change
  | add
  | change
  | destroy
deriving DecidableEq, Repr

/-- One module's status record, as built by `run_job` and consumed by
`render_comment`. `stdout`/`stderr` are kept as UTF-8 decoded text. -/
structure TfStatus where
  success : Bool
  add : Option Int
  change : Option Int
  destroy : Option Int
  stdout : String
  stderr : String
deriving DecidableEq, Repr

/-- `status[k][local_change]` for a count column. -/
def countOf (st : TfStatus) : Change → Option Int
  | .add => st.add
  | .change => st.change
  | .destroy => st.destroy

/-- The `map_change` dict: colored marker icon per column, trailing space
included. -/
def map_change : Change → String
  | .add => "![#c5f015](https://placehold.it/15/c5f015/000000?text=+) "
  | .change => "![#1589F0](https://placehold.it/15/1589F0/000000?text=+) "
  | .destroy => "![#f03c15](https://placehold.it/15/f03c15/000000?text=+) "

/-- The `tag_map` dict: colored icon for the Success column. -/
def tag_map : Bool → String
  | true => "![#c5f015](https://placehold.it/15/c5f015/000000?text=+)"
  | false => "![#f03c15](https://placehold.it/15/f03c15/000000?text=+)"

/-- Python `str` of a `bool`, as interpolated by `str.format`. -/
def pyBoolStr : Bool → String
  | true => "True"
  | false => "False"

/-- Python `v > 0` where `v` is an `int` or `None`: comparing `None` with
an `int` raises TypeError, modelled as `Except.error ()`. -/
def pyGtZero : Option Int → Except Unit Bool
  | some n => .ok (decide (0 < n))
  | none => .error ()

/-- The inner helper `flag(local_change)` of `render_comment`: first module
whose count is positive yields the column's marker; a `None` count reached
on the way raises TypeError. -/
def flag (status : List (String × TfStatus)) (c : Change) : Except Unit String :=
  match status with
  | [] => .ok ""
  | p :: rest =>
    match countOf p.2 c with
    | none => .error ()
    | some n => if 0 < n then .ok (map_change c) else flag rest c

/-- The header row `" | ".join([...])` of the table. -/
def renderHeader (status : List (String × TfStatus)) : Except Unit String := do
  let fa ← flag status .add
  let fc ← flag status .change
  let fd ← flag status .destroy
  pure (String.intercalate " | "
    ["Module", "Success", fa ++ "Add", fc ++ "Change", fd ++ "Destroy"])

/-- One count cell: `'**%d**' % v` when `v > 0`, the plain value otherwise;
comparing a `None` count raises TypeError. -/
def renderCell : Option Int → Except Unit String
  | none => .error ()
  | some n => .ok (if 0 < n then "**" ++ toString n ++ "**" else toString n)

/-- One module row of the table, per the format string
`"**{module}** | {tag} ... "`. -/
def renderRow (key : String) (st : TfStatus) : Except Unit String := do
  let a ← renderCell st.add
  let c ← renderCell st.change
  let d ← renderCell st.destroy
  pure ("**" ++ key ++ "** | " ++ tag_map st.success ++ " `" ++
    pyBoolStr st.success ++ "` | " ++ a ++ " | " ++ c ++ " | " ++ d)

/-- The first `for key in status.keys()` loop: each row followed by a
newline, in order. -/
def renderRows : List (String × TfStatus) → Except Unit String
  | [] => .ok ""
  | p :: rest => do
    let r ← renderRow p.1 p.2
    let rs ← renderRows rest
    pure (r ++ "\n" ++ rs)

/-- The per-module collapsible output section (second loop body): the
stdout/stderr blocks, `_no output_` when a stream is empty (Python string
truthiness). -/
def renderOut (key : String) (st : TfStatus) : String :=
  "\n# **" ++ key ++ "**\n\n## stdout\n\n" ++
    (if st.stdout.isEmpty then "_no output_" else "```" ++ st.stdout ++ "```") ++
    "\n\n## stderr\n\n" ++
    (if st.stderr.isEmpty then "_no output_" else "```" ++ st.stderr ++ "```") ++
    "\n"

/-- The second `for key in status.keys()` loop, concatenated. -/
def outsSection (status : List (String × TfStatus)) : String :=
  String.join (status.map (fun p => renderOut p.1 p.2))

/-- `render_comment(status)`: header, divider, module rows, then the
per-module output sections. -/
def render_comment (status : List (String × TfStatus)) : Except Unit String := do
  let hdr ← renderHeader status
  let rows ← renderRows status
  pure (hdr ++ "\n" ++ "--- | --- | ---: | ---: | ---:" ++ "\n" ++ rows ++
    outsSection status)

/-! ## `get_action`, `run_job`, `setup_environment` -/

/-- `get_action(branch, pull_request)`: `branch` is a `str` or `None`
(default), so `Option String`; `None == "master"` is false in Python. -/
def get_action (branch : Option String) (pull_request : Bool) : String :=
  if branch = some "master" ∧ pull_request = false then "apply" else "plan"

/-- What `execute(['make', '-C', path, action])` hands back to `run_job`:
return code and the two captured streams. The streams are `bytes` in the
code; `stdout` is modelled after the `cout.decode('utf-8')` step, as text
(the claims under study concern decoded text only). -/
structure ExecResult where
  returncode : Int
  stdout : String
  stderr : String
deriving DecidableEq, Repr

/-- `run_job` after the subprocess came back: builds the status record from
the return code and streams, then fills the counts from
`parse_plan(cout.decode('utf-8'))`; an uncaught exception of `parse_plan`
propagates. -/
def run_job (res : ExecResult) : Except Unit TfStatus := do
  let t ← parse_plan res.stdout
  pure { success := res.returncode = 0
         add := t.1
         change := t.2.1
         destroy := t.2.2
         stdout := res.stdout
         stderr := res.stderr }

/-- The allow-list `common_variables` of `setup_environment`, in loop
order. -/
def commonVariables : List String :=
  ["AWS_ACCESS_KEY_ID", "AWS_SECRET_ACCESS_KEY", "GITHUB_TOKEN"]

/-- `environ[k] = v` on an environment modelled as a map. -/
def envSet (env : String → Option String) (k v : String) :
    String → Option String :=
  fun x => if x = k then some v else env x

/-- One iteration of the first loop of `setup_environment`: copy
`tf_vars['TF_VAR_' + variable]` into the environment when the key is there,
and skip it silently otherwise (`except KeyError: pass`);
`variable.upper()` is the identity on these already-uppercase names. -/
def promoteStep (tfVars : List (String × String))
    (e : String → Option String) (var : String) : String → Option String :=
  match List.lookup ("TF_VAR_" ++ var) tfVars with
  | some v => envSet e var v
  | none => e

/-- The first loop of `setup_environment`, over the allow-list. -/
def promoteCommon (tfVars : List (String × String))
    (env : String → Option String) : String → Option String :=
  commonVariables.foldl (promoteStep tfVars) env

/-- `setup_environment` after the JSON file was read into `tfVars` (a JSON
object: distinct keys, insertion order): the allow-list loop, then
`environ[key] = value` for every pair of the file. -/
def setup_environment (tfVars : List (String × String))
    (env : String → Option String) : String → Option String :=
  tfVars.foldl (fun e kv => envSet e kv.1 kv.2) (promoteCommon tfVars env)

/-! ## Specification-side definitions

Definitions below restate parts of the spec's claims in a form the theorems
can quantify over; they are compared against the embedded code, never used
by it. -/

/-- The `(add, change, destroy)` values of the last `"Plan: "`-prefixed line
of a line list, when that line parses. -/
def lastPlanVals : List String → Option (Int × Int × Int)
  | [] => none
  | l :: rest =>
    match lastPlanVals rest with
    | some t => some t
    | none => if planStart l then planLineValues l else none

/-- Some module of the status mapping has a positive count in column `c`. -/
def hasPositive (status : List (String × TfStatus)) (c : Change) : Bool :=
  status.any (fun p =>
    match countOf p.2 c with
    | some n => decide (0 < n)
    | none => false)

/-- The spec's reading of a count cell: bolded exactly when positive. -/
def cellSpec (v : Option Int) : String :=
  match v with
  | some n => if 0 < n then "**" ++ toString n ++ "**" else toString n
  | none => ""

/-- The spec's reading of a module row: bold module name, colored success
tag, each count bolded exactly when positive. -/
def rowSpec (k : String) (st : TfStatus) : String :=
  "**" ++ k ++ "** | " ++ tag_map st.success ++ " `" ++ pyBoolStr st.success ++
    "` | " ++ cellSpec st.add ++ " | " ++ cellSpec st.change ++ " | " ++
    cellSpec st.destroy

/-- A module row of an all-zero, successful status mapping: plain `0`
cells, no bolded count. -/
def plainRow (k : String) : String :=
  "**" ++ k ++ "** | " ++ tag_map true ++ " `" ++ pyBoolStr true ++ "` | " ++
    "0" ++ " | " ++ "0" ++ " | " ++ "0"

/-- The module rows of an all-zero, successful status mapping. -/
def plainRows : List (String × TfStatus) → String
  | [] => ""
  | p :: rest => plainRow p.1 ++ "\n" ++ plainRows rest

/-- The table of an all-zero, successful status mapping: unmarked headers,
plain rows. -/
def plainTable (status : List (String × TfStatus)) : String :=
  "Module | Success | Add | Change | Destroy" ++ "\n" ++
    "--- | --- | ---: | ---: | ---:" ++ "\n" ++ plainRows status ++
    outsSection status

/-- `pat` occurs as a contiguous run of `l`. -/
def listInfix (pat : List Char) : List Char → Bool
  | [] => pat.isEmpty
  | c :: rest => pat.isPrefixOf (c :: rest) || listInfix pat rest

/-- The rendered text contains one of the colored marker icons of
`map_change` or `tag_map`. -/
def containsMarkerIcon (s : String) : Bool :=
  listInfix (tag_map true).data s.data ||
    listInfix (tag_map false).data s.data ||
    listInfix (map_change Change.add).data s.data ||
    listInfix (map_change Change.change).data s.data ||
    listInfix (map_change Change.destroy).data s.data

/-- The payload of a successful render, `""` on error. -/
def okStr : Except Unit String → String
  | .ok s => s
  | .error _ => ""

/-- Did the computation return normally? -/
def isOkB : Except Unit String → Bool
  | .ok _ => true
  | .error _ => false

/-- Plan output with two well-formed `"Plan: "` lines. -/
def exC1 : String :=
  "Plan: 1 to add, 2 to change, 3 to destroy.\nPlan: 4 to add, 5 to change, 6 to destroy."

/-- An all-zero, successful one-module status mapping. -/
def exC3 : List (String × TfStatus) :=
  [("app", ⟨true, some 0, some 0, some 0, "", ""⟩)]

/-- A one-module status mapping with `add = 4`. -/
def exC8 : List (String × TfStatus) :=
  [("app", ⟨true, some 4, some 0, some 0, "", ""⟩)]

/-- A status record of exC8's module. -/
def stC8 : TfStatus := ⟨true, some 4, some 0, some 0, "", ""⟩

/-- A one-module status mapping whose `add` count is `None`. -/
def exC10 : List (String × TfStatus) :=
  [("app", ⟨true, none, some 0, some 0, "", ""⟩)]

/-- A variable file holding both a `TF_VAR_`-prefixed key and the plain
key it would be promoted to. -/
def exC9 : List (String × String) :=
  [("TF_VAR_GITHUB_TOKEN", "a"), ("GITHUB_TOKEN", "b")]

/-! ## Lemmas about the `parse_plan` loop -/

/-- On lines that neither start with `"Plan: "` nor equal the no-changes
line, the loop keeps its bindings. -/
theorem parsePlanLoop_skip (ls : List String)
    (acc : Option Int × Option Int × Option Int)
    (h : ∀ l ∈ ls, planStart l = false ∧ l ≠ noChangesStr) :
    parsePlanLoop ls acc = .ok acc := by
  induction ls with
  | nil => rfl
  | cons l rest ih =>
    have hl := h l (List.mem_cons_self l rest)
    simp only [parsePlanLoop, hl.1, Bool.false_eq_true, if_false, hl.2,
      ite_false]
    exact ih (fun l' h' => h l' (List.mem_cons_of_mem _ h'))

/-- When every `"Plan: "` line of the list parses, the loop never raises. -/
theorem parsePlanLoop_ok (ls : List String)
    (acc : Option Int × Option Int × Option Int)
    (hwf : ∀ l ∈ ls, planStart l = true → (planLineValues l).isSome) :
    ∃ t, parsePlanLoop ls acc = .ok t := by
  induction ls generalizing acc with
  | nil => exact ⟨acc, rfl⟩
  | cons l rest ih =>
    have hrest : ∀ l' ∈ rest, planStart l' = true → (planLineValues l').isSome :=
      fun l' h' => hwf l' (List.mem_cons_of_mem _ h')
    by_cases hp : planStart l = true
    · obtain ⟨⟨a, c, d⟩, ht⟩ :=
        Option.isSome_iff_exists.mp (hwf l (List.mem_cons_self l rest) hp)
      simp only [parsePlanLoop, hp, if_true, ht]
      exact ih _ hrest
    · have hp' : planStart l = false := by
        cases hpl : planStart l
        · rfl
        · exact absurd hpl hp
      by_cases hn : l = noChangesStr
      · have hps : planStart noChangesStr = false := by decide
        exact ⟨(some 0, some 0, some 0), by
          simp only [parsePlanLoop, hn, hps, Bool.false_eq_true, if_false,
            ite_true]⟩
      · simp only [parsePlanLoop, hp', Bool.false_eq_true, if_false, hn,
          ite_false]
        exact ih _ hrest

/-- Reaching a no-changes line through well-formed `"Plan: "` lines returns
`(0, 0, 0)`, whatever follows. -/
theorem parsePlanLoop_noChanges (l₁ l₂ : List String)
    (acc : Option Int × Option Int × Option Int)
    (hwf : ∀ l ∈ l₁, planStart l = true → (planLineValues l).isSome) :
    parsePlanLoop (l₁ ++ noChangesStr :: l₂) acc =
      .ok (some 0, some 0, some 0) := by
  induction l₁ generalizing acc with
  | nil =>
    have hps : planStart noChangesStr = false := by decide
    simp only [List.nil_append, parsePlanLoop, hps, Bool.false_eq_true,
      if_false, ite_true]
  | cons l rest ih =>
    have hrest : ∀ l' ∈ rest, planStart l' = true → (planLineValues l').isSome :=
      fun l' h' => hwf l' (List.mem_cons_of_mem _ h')
    rw [List.cons_append]
    by_cases hp : planStart l = true
    · obtain ⟨⟨a, c, d⟩, ht⟩ :=
        Option.isSome_iff_exists.mp (hwf l (List.mem_cons_self l rest) hp)
      simp only [parsePlanLoop, hp, if_true, ht]
      exact ih _ hrest
    · have hp' : planStart l = false := by
        cases hpl : planStart l
        · rfl
        · exact absurd hpl hp
      by_cases hn : l = noChangesStr
      · have hps : planStart noChangesStr = false := by decide
        simp only [parsePlanLoop, hn, hps, Bool.false_eq_true, if_false,
          ite_true]
      · simp only [parsePlanLoop, hp', Bool.false_eq_true, if_false, hn,
          ite_false]
        exact ih _ hrest

/-- With every `"Plan: "` line well-formed and no no-changes line, the loop
returns the last `"Plan: "` line's values, or its incoming bindings when
there is none. -/
theorem parsePlanLoop_clean (ls : List String)
    (acc : Option Int × Option Int × Option Int)
    (hwf : ∀ l ∈ ls, planStart l = true → (planLineValues l).isSome)
    (hnc : ∀ l ∈ ls, l ≠ noChangesStr) :
    parsePlanLoop ls acc = .ok (match lastPlanVals ls with
      | some (x, y, z) => (some x, some y, some z)
      | none => acc) := by
  induction ls generalizing acc with
  | nil => rfl
  | cons l rest ih =>
    have hwf' : ∀ l' ∈ rest, planStart l' = true → (planLineValues l').isSome :=
      fun l' h' => hwf l' (List.mem_cons_of_mem _ h')
    have hnc' : ∀ l' ∈ rest, l' ≠ noChangesStr :=
      fun l' h' => hnc l' (List.mem_cons_of_mem _ h')
    by_cases hp : planStart l = true
    · obtain ⟨⟨a, c, d⟩, ht⟩ :=
        Option.isSome_iff_exists.mp (hwf l (List.mem_cons_self l rest) hp)
      simp only [parsePlanLoop, hp, if_true, ht]
      rw [ih _ hwf' hnc']
      cases hrest : lastPlanVals rest with
      | some t =>
        obtain ⟨x, y, z⟩ := t
        simp only [lastPlanVals, hrest]
      | none => simp only [lastPlanVals, hrest, hp, if_true, ht]
    · have hp' : planStart l = false := by
        cases hpl : planStart l
        · rfl
        · exact absurd hpl hp
      have hn := hnc l (List.mem_cons_self l rest)
      simp only [parsePlanLoop, hp', Bool.false_eq_true, if_false, hn,
        ite_false]
      rw [ih _ hwf' hnc']
      cases hrest : lastPlanVals rest with
      | some t =>
        obtain ⟨x, y, z⟩ := t
        simp only [lastPlanVals, hrest]
      | none =>
        simp only [lastPlanVals, hrest, hp', Bool.false_eq_true, if_false]

/-! ## Claim theorems: the plan-output parser and the action selector -/

/-- C1 (amended): for every input string whose `"Plan: "`-prefixed lines
are all well-formed, with no line equal to the no-changes line, and whose
last `"Plan: "` line carries the values `(X, Y, Z)` at whitespace-split
tokens 1, 4 and 7, `parse_plan` returns `(X, Y, Z)` as integers. -/
theorem parse_plan_last_plan_line (s : String) (X Y Z : Int)
    (hwf : ∀ l ∈ pySplitlines s, planStart l = true → (planLineValues l).isSome)
    (hnc : ∀ l ∈ pySplitlines s, l ≠ noChangesStr)
    (hlast : lastPlanVals (pySplitlines s) = some (X, Y, Z)) :
    parse_plan s = .ok (some X, some Y, some Z) := by
  rw [parse_plan, parsePlanLoop_clean _ _ hwf hnc, hlast]

/-- Witness for C1: a two-line output whose second line is the plan line. -/
theorem parse_plan_last_plan_line_witness :
    parse_plan "Refreshing state...\nPlan: 4 to add, 11 to change, 7 to destroy." =
      .ok (some 4, some 11, some 7) :=
  parse_plan_last_plan_line
    "Refreshing state...\nPlan: 4 to add, 11 to change, 7 to destroy."
    4 11 7 (by decide) (by decide) (by decide)

/-- Counterexample for C1 as stated: `exC1` contains the well-formed line
`"Plan: 1 to add, 2 to change, 3 to destroy."` with values `(1, 2, 3)` and
no no-changes line after it, yet `parse_plan` returns `(4, 5, 6)` — a later
`"Plan: "` line overwrites an earlier one. -/
theorem parse_plan_first_plan_line_cex :
    planLineValues "Plan: 1 to add, 2 to change, 3 to destroy." =
        some (1, 2, 3) ∧
    pySplitlines exC1 = ["Plan: 1 to add, 2 to change, 3 to destroy.",
      "Plan: 4 to add, 5 to change, 6 to destroy."] ∧
    noChangesStr ∉ pySplitlines exC1 ∧
    parse_plan exC1 = .ok (some 4, some 5, some 6) ∧
    (4 : Int) ≠ 1 :=
  ⟨rfl, rfl, by decide, rfl, by decide⟩

/-- C2 (amended): on every input string whose `"Plan: "`-prefixed lines all
carry Python integers at tokens 1, 4 and 7, `parse_plan` returns a value
and raises no error; when no pattern matches, the counts stay null
(`parse_plan_default_none` proves that part). Malformed `"Plan: "` lines
are the exception: only `AttributeError` is caught, so their
IndexError/ValueError propagates. -/
theorem parse_plan_total_on_wellformed (s : String)
    (hwf : ∀ l ∈ pySplitlines s, planStart l = true → (planLineValues l).isSome) :
    ∃ t, parse_plan s = .ok t :=
  parsePlanLoop_ok _ _ hwf

/-- Witness for C2: mixed well-formed output returns a value. -/
theorem parse_plan_total_on_wellformed_witness :
    ∃ t, parse_plan "garbage\nPlan: 1 to add, 0 to change, 0 to destroy." =
      .ok t :=
  parse_plan_total_on_wellformed
    "garbage\nPlan: 1 to add, 0 to change, 0 to destroy." (by decide)

/-- Counterexample for C2 as stated: on the malformed line `"Plan: x"`
(token 1 is not numeric, tokens 4 and 7 missing), `parse_plan` raises
(IndexError is not caught) instead of returning null counts silently. -/
theorem parse_plan_raises_cex : parse_plan "Plan: x" = .error () := rfl

/-- C6 (amended): for every input string in which some line equals
`"No changes. Infrastructure is up-to-date."` and every `"Plan: "`-prefixed
line before it is well-formed, `parse_plan` returns `(0, 0, 0)` upon
reaching that line, regardless of the lines around it (an earlier
*malformed* `"Plan: "` line instead raises before the no-changes line is
reached). -/
theorem parse_plan_no_changes (s : String) (l₁ l₂ : List String)
    (hsplit : pySplitlines s = l₁ ++ noChangesStr :: l₂)
    (hwf : ∀ l ∈ l₁, planStart l = true → (planLineValues l).isSome) :
    parse_plan s = .ok (some 0, some 0, some 0) := by
  rw [parse_plan, hsplit]
  exact parsePlanLoop_noChanges _ _ _ hwf

/-- Witness for C6: a no-changes line after an earlier plan line wins. -/
theorem parse_plan_no_changes_witness :
    parse_plan
        "Plan: 9 to add, 9 to change, 9 to destroy.\nNo changes. Infrastructure is up-to-date." =
      .ok (some 0, some 0, some 0) :=
  parse_plan_no_changes
    "Plan: 9 to add, 9 to change, 9 to destroy.\nNo changes. Infrastructure is up-to-date."
    ["Plan: 9 to add, 9 to change, 9 to destroy."] [] (by decide) (by decide)

/-- Counterexample for C6 as stated: an input containing the no-changes
line preceded by a malformed `"Plan: "` line raises instead of returning
`(0, 0, 0)` — the result is not independent of earlier `"Plan: "` lines. -/
theorem parse_plan_no_changes_cex :
    noChangesStr ∈
        pySplitlines "Plan: x\nNo changes. Infrastructure is up-to-date." ∧
    parse_plan "Plan: x\nNo changes. Infrastructure is up-to-date." =
      .error () :=
  ⟨by decide, rfl⟩

/-- C7: for every input string with no `"Plan: "`-prefixed line and no
no-changes line, `parse_plan` returns null for all three counts. -/
theorem parse_plan_default_none (s : String)
    (h : ∀ l ∈ pySplitlines s, planStart l = false ∧ l ≠ noChangesStr) :
    parse_plan s = .ok (none, none, none) :=
  parsePlanLoop_skip _ _ h

/-- Witness for C7: unrelated output keeps the null defaults. -/
theorem parse_plan_default_none_witness :
    parse_plan "Initializing modules...\nall good" = .ok (none, none, none) :=
  parse_plan_default_none "Initializing modules...\nall good" (by decide)

/-- C4: `get_action` returns `"apply"` exactly when the branch is
`"master"` and `pull_request` is false, and `"plan"` in every other case;
the four cases of the spec are listed. -/
theorem get_action_spec (b : Option String) (p : Bool) :
    (get_action b p = "apply" ↔ b = some "master" ∧ p = false) ∧
    (get_action b p = "apply" ∨ get_action b p = "plan") ∧
    get_action (some "master") false = "apply" ∧
    get_action (some "master") true = "plan" ∧
    get_action (some "develop") false = "plan" ∧
    get_action none false = "plan" := by
  have hdic : get_action b p = "apply" ∨ get_action b p = "plan" := by
    unfold get_action
    by_cases h : b = some "master" ∧ p = false
    · exact Or.inl (if_pos h)
    · exact Or.inr (if_neg h)
  have hiff : get_action b p = "apply" ↔ b = some "master" ∧ p = false := by
    constructor
    · intro ha
      by_contra hcon
      rw [get_action, if_neg hcon] at ha
      exact absurd ha (by decide)
    · intro hc
      rw [get_action, if_pos hc]
  exact ⟨hiff, hdic, rfl, rfl, rfl, rfl⟩

/-! ## Claim theorems: the job runner -/

/-- C5 (amended): for every exit code and captured streams such that
`parse_plan` succeeds on the decoded stdout (in particular whenever its
`"Plan: "`-prefixed lines are well-formed), `run_job` returns a status
record whose `success` is true exactly when the exit code is zero, whose
streams are the captured ones, and whose counts are `parse_plan`'s output;
a non-zero exit code alone never causes an exception (stdout on which
`parse_plan` raises does, see the counterexample). -/
theorem run_job_spec (rc : Int) (cout cerr : String)
    (t : Option Int × Option Int × Option Int)
    (h : parse_plan cout = .ok t) :
    run_job ⟨rc, cout, cerr⟩ =
      .ok ⟨decide (rc = 0), t.1, t.2.1, t.2.2, cout, cerr⟩ ∧
    ((decide (rc = 0) : Bool) = true ↔ rc = 0) := by
  constructor
  · simp only [run_job, h]
    rfl
  · exact decide_eq_true_iff

/-- Witness for C5: a failing job (exit code 2) still returns a record. -/
theorem run_job_spec_witness :
    run_job ⟨2, "Plan: 1 to add, 2 to change, 3 to destroy.", "oops"⟩ =
      .ok ⟨decide ((2 : Int) = 0), some 1, some 2, some 3,
        "Plan: 1 to add, 2 to change, 3 to destroy.", "oops"⟩ ∧
    ((decide ((2 : Int) = 0) : Bool) = true ↔ (2 : Int) = 0) :=
  run_job_spec 2 "Plan: 1 to add, 2 to change, 3 to destroy." "oops"
    (some 1, some 2, some 3) rfl

/-- Counterexample for C5 as stated: a subprocess whose stdout decodes to
the malformed line `"Plan: x"` makes `run_job` raise (through
`parse_plan`), so not every exit code / stdout / stderr combination yields
a status record. -/
theorem run_job_raises_cex : run_job ⟨0, "Plan: x", ""⟩ = .error () := rfl

/-! ## Lemmas about the comment renderer -/

/-- With all counts of a column zero, no marker icon is put on its
header. -/
theorem flag_all_zero (status : List (String × TfStatus)) (c : Change)
    (h : ∀ p ∈ status, countOf p.2 c = some 0) :
    flag status c = .ok "" := by
  induction status with
  | nil => rfl
  | cons p rest ih =>
    have hc := h p (List.mem_cons_self p rest)
    rw [flag, hc]
    show (if (0 : Int) < 0 then Except.ok (map_change c) else flag rest c) =
      Except.ok ""
    rw [if_neg (lt_irrefl (0 : Int))]
    exact ih (fun q hq => h q (List.mem_cons_of_mem _ hq))

/-- With every count of a column an integer, the column's header carries
its marker icon exactly when some module's count is positive. -/
theorem flag_marker_iff (status : List (String × TfStatus)) (c : Change)
    (h : ∀ p ∈ status, (countOf p.2 c).isSome) :
    flag status c = .ok (if hasPositive status c then map_change c else "") := by
  induction status with
  | nil => rfl
  | cons p rest ih =>
    obtain ⟨n, hn⟩ :=
      Option.isSome_iff_exists.mp (h p (List.mem_cons_self p rest))
    rw [flag, hn]
    show (if 0 < n then Except.ok (map_change c) else flag rest c) =
      Except.ok (if hasPositive (p :: rest) c then map_change c else "")
    by_cases hpos : 0 < n
    · rw [if_pos hpos]
      have hany : hasPositive (p :: rest) c = true := by
        simp [hasPositive, hn, hpos]
      rw [hany, if_pos rfl]
    · rw [if_neg hpos]
      have hany : hasPositive (p :: rest) c = hasPositive rest c := by
        simp [hasPositive, hn, hpos]
      rw [ih (fun q hq => h q (List.mem_cons_of_mem _ hq)), hany]

/-- A row with integer counts renders as `rowSpec`: each count bolded
exactly when positive. -/
theorem renderRow_rowSpec (k : String) (st : TfStatus)
    (ha : st.add.isSome) (hc : st.change.isSome) (hd : st.destroy.isSome) :
    renderRow k st = .ok (rowSpec k st) := by
  obtain ⟨a, ha'⟩ := Option.isSome_iff_exists.mp ha
  obtain ⟨c, hc'⟩ := Option.isSome_iff_exists.mp hc
  obtain ⟨d, hd'⟩ := Option.isSome_iff_exists.mp hd
  simp only [renderRow, rowSpec, ha', hc', hd']
  rfl

/-- An all-zero successful row renders as the plain row. -/
theorem renderRow_plain (k : String) (st : TfStatus)
    (h : st.add = some 0 ∧ st.change = some 0 ∧ st.destroy = some 0 ∧
      st.success = true) :
    renderRow k st = .ok (plainRow k) := by
  obtain ⟨h1, h2, h3, h4⟩ := h
  simp only [renderRow, plainRow, h1, h2, h3, h4]
  rfl

/-- All-zero successful rows render as the plain rows. -/
theorem renderRows_plain (status : List (String × TfStatus))
    (h : ∀ p ∈ status, p.2.add = some 0 ∧ p.2.change = some 0 ∧
      p.2.destroy = some 0 ∧ p.2.success = true) :
    renderRows status = .ok (plainRows status) := by
  induction status with
  | nil => rfl
  | cons p rest ih =>
    rw [renderRows, renderRow_plain p.1 p.2 (h p (List.mem_cons_self p rest)),
      ih (fun q hq => h q (List.mem_cons_of_mem _ hq))]
    rfl

/-- A row with a null count raises TypeError. -/
theorem renderRow_error (k : String) (st : TfStatus)
    (h : st.add = none ∨ st.change = none ∨ st.destroy = none) :
    renderRow k st = .error () := by
  rcases h with h | h | h
  · simp only [renderRow, h]
    rfl
  · cases ha : st.add with
    | none =>
      simp only [renderRow, ha]
      rfl
    | some a =>
      simp only [renderRow, ha, h]
      rfl
  · cases ha : st.add with
    | none =>
      simp only [renderRow, ha]
      rfl
    | some a =>
      cases hc : st.change with
      | none =>
        simp only [renderRow, ha, hc]
        rfl
      | some c =>
        simp only [renderRow, ha, hc, h]
        rfl

/-- A null count anywhere makes the row loop raise. -/
theorem renderRows_error (status : List (String × TfStatus))
    (k : String) (st : TfStatus) (hmem : (k, st) ∈ status)
    (h : st.add = none ∨ st.change = none ∨ st.destroy = none) :
    renderRows status = .error () := by
  induction status with
  | nil => cases hmem
  | cons p rest ih =>
    rcases List.mem_cons.mp hmem with heq | hmem'
    · rw [renderRows, ← heq, renderRow_error k st h]
      rfl
    · rw [renderRows]
      cases hr : renderRow p.1 p.2 with
      | error e =>
        cases e
        rfl
      | ok r =>
        show Except.bind (renderRows rest) _ = _
        rw [ih hmem']
        rfl

/-! ## Claim theorems: the comment renderer -/

/-- C3 (amended): on a status mapping with all-zero counts and
`success=True`, `render_comment` produces a table whose column headers
carry no colored marker icon and whose count cells hold plain `0`s with no
bolded number; the Success column still carries its colored tag (see the
counterexample) and module names stay bolded. -/
theorem render_comment_plain_table (status : List (String × TfStatus))
    (h : ∀ p ∈ status, p.2.add = some 0 ∧ p.2.change = some 0 ∧
      p.2.destroy = some 0 ∧ p.2.success = true) :
    render_comment status = .ok (plainTable status) := by
  have hflag : ∀ c, flag status c = .ok "" := by
    intro c
    refine flag_all_zero status c (fun p hp => ?_)
    have := h p hp
    cases c
    · exact this.1
    · exact this.2.1
    · exact this.2.2.1
  have hhdr : renderHeader status =
      .ok "Module | Success | Add | Change | Destroy" := by
    simp only [renderHeader, hflag]
    rfl
  have hrows := renderRows_plain status h
  simp only [render_comment, hhdr, hrows, plainTable]
  rfl

/-- Witness for C3: the one-module all-zero mapping `exC3`. -/
theorem render_comment_plain_table_witness :
    render_comment exC3 = .ok (plainTable exC3) :=
  render_comment_plain_table exC3 (by decide)

/-- Counterexample for C3 as stated: the table rendered for the all-zero
successful mapping `exC3` does contain a colored marker icon — the
Success column's tag `![#c5f015](...)` — so "no colored marker icons"
fails. -/
theorem render_comment_marker_cex :
    isOkB (render_comment exC3) = true ∧
    containsMarkerIcon (okStr (render_comment exC3)) = true :=
  ⟨rfl, rfl⟩

/-- C8: on a status mapping whose counts are all integers, a column header
carries its colored marker icon exactly when some module's count in that
column is positive, and each row bolds a count exactly when it is positive
(`rowSpec`/`cellSpec` spell that shape out). -/
theorem render_comment_flags_bold (status : List (String × TfStatus))
    (h : ∀ p ∈ status, p.2.add.isSome ∧ p.2.change.isSome ∧
      p.2.destroy.isSome) :
    (∀ c, flag status c =
      .ok (if hasPositive status c then map_change c else "")) ∧
    (∀ p ∈ status, renderRow p.1 p.2 = .ok (rowSpec p.1 p.2)) := by
  constructor
  · intro c
    refine flag_marker_iff status c (fun p hp => ?_)
    have := h p hp
    cases c
    · exact this.1
    · exact this.2.1
    · exact this.2.2
  · intro p hp
    exact renderRow_rowSpec p.1 p.2 (h p hp).1 (h p hp).2.1 (h p hp).2.2

/-- Witness for C8: a module with `add = 4` yields the marker icon on the
Add header and the bolded `**4**` in its row. -/
theorem render_comment_flags_bold_witness :
    flag exC8 Change.add = .ok (map_change Change.add) ∧
    renderRow "app" stC8 =
      .ok ("**app** | ![#c5f015](https://placehold.it/15/c5f015/000000?text=+) " ++
        "`True` | **4** | 0 | 0") := by
  have h := render_comment_flags_bold exC8 (by decide)
  exact ⟨h.1 Change.add, h.2 ("app", stC8) (List.mem_cons_self _ _)⟩

/-- C10: `render_comment` is only defined on integer counts — on every
status mapping in which some module's count is null (as `parse_plan`
produces when no pattern matches), it fails with the TypeError of comparing
`None` against `0` instead of producing a table. -/
theorem render_comment_none_error (status : List (String × TfStatus))
    (hex : ∃ p ∈ status, p.2.add = none ∨ p.2.change = none ∨
      p.2.destroy = none) :
    render_comment status = .error () := by
  obtain ⟨p, hmem, h⟩ := hex
  obtain ⟨k, st⟩ := p
  have hrows : renderRows status = .error () :=
    renderRows_error status k st hmem h
  cases hh : renderHeader status with
  | error e =>
    cases e
    simp only [render_comment, hh]
    rfl
  | ok hdr =>
    simp only [render_comment, hh, hrows]
    rfl

/-- Witness for C10: a single module whose `add` is null makes the render
fail. -/
theorem render_comment_none_error_witness :
    render_comment exC10 = .error () :=
  render_comment_none_error exC10
    ⟨("app", ⟨true, none, some 0, some 0, "", ""⟩),
      List.mem_cons_self _ _, Or.inl rfl⟩

/-! ## Lemmas about the environment setup -/

theorem envSet_self (e : String → Option String) (k v : String) :
    envSet e k v k = some v := by
  simp [envSet]

theorem envSet_other (e : String → Option String) (k v x : String)
    (h : x ≠ k) : envSet e k v x = e x := by
  simp [envSet, h]

/-- The copy-everything loop leaves keys outside the file unchanged. -/
theorem foldSet_not_key (l : List (String × String)) (k : String) :
    k ∉ l.map Prod.fst → ∀ e : String → Option String,
      l.foldl (fun e kv => envSet e kv.1 kv.2) e k = e k := by
  induction l with
  | nil => exact fun _ _ => rfl
  | cons p rest ih =>
    intro h e
    have hk : k ≠ p.1 := fun hkp => h (List.mem_cons.mpr (Or.inl hkp))
    have h1 : k ∉ rest.map Prod.fst := fun hm => h (List.mem_cons.mpr (Or.inr hm))
    rw [List.foldl_cons, ih h1]
    exact envSet_other e p.1 p.2 k hk

/-- With distinct keys, the copy-everything loop writes each pair's
value. -/
theorem foldSet_mem (l : List (String × String)) (k v : String) :
    (l.map Prod.fst).Nodup → (k, v) ∈ l → ∀ e : String → Option String,
      l.foldl (fun e kv => envSet e kv.1 kv.2) e k = some v := by
  induction l with
  | nil => exact fun _ hm => absurd hm (List.not_mem_nil _)
  | cons p rest ih =>
    intro hnd hm e
    rw [List.map_cons] at hnd
    have hnd' := List.nodup_cons.mp hnd
    rw [List.foldl_cons]
    rcases List.mem_cons.mp hm with heq | hm'
    · have hk : k ∉ rest.map Prod.fst := by
        have hp := hnd'.1
        rw [← heq] at hp
        exact hp
      rw [foldSet_not_key rest k hk, ← heq]
      exact envSet_self e k v
    · exact ih hnd'.2 hm' _

/-- The promote loop leaves variables outside its list unchanged. -/
theorem promoteFold_not_mem (tfVars : List (String × String))
    (vars : List String) (x : String) :
    x ∉ vars → ∀ env : String → Option String,
      vars.foldl (promoteStep tfVars) env x = env x := by
  induction vars with
  | nil => exact fun _ _ => rfl
  | cons w rest ih =>
    intro hx env
    have hx1 : x ≠ w := fun h => hx (List.mem_cons.mpr (Or.inl h))
    have hx2 : x ∉ rest := fun h => hx (List.mem_cons.mpr (Or.inr h))
    rw [List.foldl_cons, ih hx2]
    unfold promoteStep
    cases List.lookup ("TF_VAR_" ++ w) tfVars with
    | none => rfl
    | some v => exact envSet_other env w v x hx1

/-- A listed variable whose prefixed key is in the file is promoted. -/
theorem promoteFold_hit (tfVars : List (String × String))
    (vars : List String) (var v : String)
    (hl : List.lookup ("TF_VAR_" ++ var) tfVars = some v) :
    vars.Nodup → var ∈ vars → ∀ env : String → Option String,
      vars.foldl (promoteStep tfVars) env var = some v := by
  induction vars with
  | nil => exact fun _ hv => absurd hv (List.not_mem_nil _)
  | cons w rest ih =>
    intro hnd hv env
    rw [List.foldl_cons]
    rcases List.mem_cons.mp hv with heq | hv'
    · subst heq
      have hw : var ∉ rest := (List.nodup_cons.mp hnd).1
      rw [promoteFold_not_mem tfVars rest var hw]
      unfold promoteStep
      rw [hl]
      exact envSet_self env var v
    · exact ih (List.nodup_cons.mp hnd).2 hv' _

/-- A listed variable whose prefixed key is missing is silently skipped. -/
theorem promoteFold_miss (tfVars : List (String × String))
    (vars : List String) (var : String)
    (hl : List.lookup ("TF_VAR_" ++ var) tfVars = none) :
    vars.Nodup → var ∈ vars → ∀ env : String → Option String,
      vars.foldl (promoteStep tfVars) env var = env var := by
  induction vars with
  | nil => exact fun _ hv => absurd hv (List.not_mem_nil _)
  | cons w rest ih =>
    intro hnd hv env
    rw [List.foldl_cons]
    rcases List.mem_cons.mp hv with heq | hv'
    · subst heq
      have hw : var ∉ rest := (List.nodup_cons.mp hnd).1
      rw [promoteFold_not_mem tfVars rest var hw]
      unfold promoteStep
      rw [hl]
    · have hwv : var ≠ w := by
        intro h
        exact (List.nodup_cons.mp hnd).1 (h ▸ hv')
      rw [ih (List.nodup_cons.mp hnd).2 hv' _]
      unfold promoteStep
      cases List.lookup ("TF_VAR_" ++ w) tfVars with
      | none => rfl
      | some u => exact envSet_other env w u var hwv

/-! ## Claim theorems: the environment setup -/

/-- C9 (amended): after `setup_environment` runs on a JSON object of
string pairs (distinct keys), every key of the file is copied into the
environment verbatim; each allow-listed variable (`GITHUB_TOKEN`,
`AWS_ACCESS_KEY_ID`, `AWS_SECRET_ACCESS_KEY`) is set from its
`TF_VAR_`-prefixed key when that key is present — provided the plain name
is not itself a key of the file, in which case the verbatim copy wins (see
the counterexample) — and is left untouched (silently skipped, no error)
when the prefixed key is absent and the plain name is not a key. -/
theorem setup_environment_spec (tfVars : List (String × String))
    (env : String → Option String)
    (hnd : (tfVars.map Prod.fst).Nodup) :
    (∀ var ∈ commonVariables, ∀ v : String,
      List.lookup ("TF_VAR_" ++ var) tfVars = some v →
      var ∉ tfVars.map Prod.fst →
      setup_environment tfVars env var = some v) ∧
    (∀ k v : String, (k, v) ∈ tfVars →
      setup_environment tfVars env k = some v) ∧
    (∀ var ∈ commonVariables,
      List.lookup ("TF_VAR_" ++ var) tfVars = none →
      var ∉ tfVars.map Prod.fst →
      setup_environment tfVars env var = env var) := by
  refine ⟨?_, ?_, ?_⟩
  · intro var hvar v hl hnk
    rw [setup_environment, foldSet_not_key tfVars var hnk, promoteCommon]
    exact promoteFold_hit tfVars commonVariables var v hl (by decide) hvar env
  · intro k v hm
    rw [setup_environment]
    exact foldSet_mem tfVars k v hnd hm _
  · intro var hvar hl hnk
    rw [setup_environment, foldSet_not_key tfVars var hnk, promoteCommon]
    exact promoteFold_miss tfVars commonVariables var hl (by decide) hvar env

/-- Witness for C9: a file with a promoted token, a verbatim key, and no
AWS keys. -/
theorem setup_environment_spec_witness :
    setup_environment [("TF_VAR_GITHUB_TOKEN", "tok"), ("foo", "bar")]
      (fun _ => none) "GITHUB_TOKEN" = some "tok" ∧
    setup_environment [("TF_VAR_GITHUB_TOKEN", "tok"), ("foo", "bar")]
      (fun _ => none) "foo" = some "bar" ∧
    setup_environment [("TF_VAR_GITHUB_TOKEN", "tok"), ("foo", "bar")]
      (fun _ => none) "AWS_ACCESS_KEY_ID" = none := by
  have h := setup_environment_spec
    [("TF_VAR_GITHUB_TOKEN", "tok"), ("foo", "bar")] (fun _ => none)
    (by decide)
  exact ⟨h.1 "GITHUB_TOKEN" (by decide) "tok" rfl (by decide),
    h.2.1 "foo" "bar" (by decide),
    h.2.2 "AWS_ACCESS_KEY_ID" (by decide) rfl (by decide)⟩

/-- Counterexample for C9 as stated: in `exC9` the prefixed key
`TF_VAR_GITHUB_TOKEN` is present with value `"a"`, yet the environment ends
with `GITHUB_TOKEN = "b"`: the unconditional verbatim copy of the plain
key `GITHUB_TOKEN` overwrites the promoted value, so the two halves of the
claim cannot both hold on such a file. -/
theorem setup_environment_overwrite_cex :
    List.lookup ("TF_VAR_" ++ "GITHUB_TOKEN") exC9 = some "a" ∧
    setup_environment exC9 (fun _ => none) "GITHUB_TOKEN" = some "b" ∧
    "b" ≠ "a" :=
  ⟨rfl, rfl, by decide⟩

end TerraformCI
